import Mathlib

/-!
Verification of the image-to-video backend against its specification.

The development shallowly embeds the Python sources:

* `src/backend/python_ffmpeg.py` — `make_atempo_chain` (tempo chain planner)
  and the probe/transcode pipeline of `sync_audio_to_video`;
* `src/backend/audio_video_sync.py` — `merge_audio_video` (media merger);
* `src/backend/video_generator.py` — `KlingGenerator.__init__` (construction),
  `_generate_jwt_token` (token issuer), `_poll_task_status` (poll loop) and
  `generate_video` (orchestration entry point).

Python floats are modelled as rationals (every arithmetic operation these
functions perform — division by 2.0 and by 0.5, and comparisons — is exact in
binary floating point away from overflow/subnormal extremes, so the rational
model and the float semantics agree on these code paths).  Machine-level
while-loops are modelled with an explicit fuel parameter: a `none` result
means the fuel ran out, and a function that diverges in Python returns `none`
for every fuel.  External effects (filesystem, processes, HTTP) are oracles
supplied through environment records; a Python exception in flight is an
`Except.error` carrying the message text.
-/

/-! ### Tempo chain planner (`python_ffmpeg.make_atempo_chain`)

Source:
```
parts = []
while ratio > 2.0: parts.append(('atempo', 2.0)); ratio /= 2.0
while ratio < 0.5: parts.append(('atempo', 0.5)); ratio /= 0.5
parts.append(('atempo', ratio))
return parts
```
`loopHalve` is the first while loop, `loopDouble` the second, each returning
the appended factors together with the residual ratio; the fuel bounds the
number of iterations.
-/

def loopHalve : Nat → ℚ → Option (List ℚ × ℚ)
  | 0, r => if 2 < r then none else some ([], r)
  | f + 1, r =>
    if 2 < r then (loopHalve f (r / 2)).map (fun p => (2 :: p.1, p.2))
    else some ([], r)

def loopDouble : Nat → ℚ → Option (List ℚ × ℚ)
  | 0, r => if r < 1 / 2 then none else some ([], r)
  | f + 1, r =>
    if r < 1 / 2 then (loopDouble f (r / (1 / 2))).map (fun p => (1 / 2 :: p.1, p.2))
    else some ([], r)

def make_atempo_chain (fuel : Nat) (ratio : ℚ) : Option (List (String × ℚ)) :=
  match loopHalve fuel ratio with
  | none => none
  | some (l1, r1) =>
    match loopDouble fuel r1 with
    | none => none
    | some (l2, r2) => some ((l1 ++ l2).map (fun x => ("atempo", x)) ++ [("atempo", r2)])

/-- A legal tempo filter entry: tag `"atempo"` and a factor in [0.5, 2.0]. -/
def okFactor (p : String × ℚ) : Bool :=
  p.1 == "atempo" && decide ((1 : ℚ) / 2 ≤ p.2) && decide (p.2 ≤ 2)

/-- Fuel sufficient for both while loops of `make_atempo_chain` at a positive
ratio (the numerator bounds the halvings, the denominator the doublings). -/
def atempoFuelBound (r : ℚ) : Nat := max r.num.natAbs r.den

/-! ### Poll loop (`KlingGenerator._poll_task_status`)

The provider is modelled as a response sequence indexed by the attempt
number of the `for attempt in range(max_attempts)` loop.  `PollResponse.exn`
is any exception raised while sending the GET request, checking the HTTP
status or parsing the JSON body (all caught by the per-iteration
`except`).  `PollResponse.ok` carries the JSON fields the code reads:
`code`, `message`, `data.task_status`, `data.task_status_msg` and
`data.task_result.videos` (each `Option` because Python `dict.get` yields
`None` for a missing key; JSON payload values are modelled as strings).
`PollStats` counts the GET requests sent, the `time.sleep` calls and the
JWT tokens generated (the one generated before the loop included). -/

/-- ASCII case-folding of `str.lower()` (provider messages are ASCII). -/
def pyLowerChar (c : Char) : Char :=
  if 65 ≤ c.toNat ∧ c.toNat ≤ 90 then Char.ofNat (c.toNat + 32) else c

def pyLower (s : String) : String := String.mk (s.data.map pyLowerChar)

/-- Substring occurrence, Python's `pat in s`. -/
def subOccurs (pat : List Char) : List Char → Bool
  | [] => pat.isEmpty
  | c :: rest => pat.isPrefixOf (c :: rest) || subOccurs pat rest

def pyContains (hay pat : String) : Bool := subOccurs pat.data hay.data

/-- `"token" in error_message.lower() or "auth" in error_message.lower()`. -/
def authIndicated (msg : String) : Bool :=
  pyContains (pyLower msg) "token" || pyContains (pyLower msg) "auth"

structure VideoInfo where
  url : Option String
  duration : Option String
deriving DecidableEq

inductive PollResponse where
  | exn : PollResponse
  | ok (code : Option Int) (message : Option String) (task_status : Option String)
      (task_status_msg : Option String) (videos : List VideoInfo) : PollResponse

/-- The dict returned by `_poll_task_status`: either
`{"status": "failed", "error": ...}` or
`{"status": "completed", "url": ..., "duration": ...}`. -/
inductive PollResult where
  | failed (error : String) : PollResult
  | completed (url : Option String) (duration : Option String) : PollResult
deriving DecidableEq

structure PollStats where
  polls : Nat
  sleeps : Nat
  tokens : Nat
deriving DecidableEq

/-- One loop of `_poll_task_status`, fuel = remaining loop iterations. -/
def pollAux (s : Nat → PollResponse) : Nat → Nat → PollStats → PollResult × PollStats
  | 0, _, st => (.failed "Maximum polling attempts reached", st)
  | fuel + 1, attempt, st =>
    let st1 : PollStats := ⟨st.polls + 1, st.sleeps, st.tokens⟩
    match s attempt with
    | .exn => pollAux s fuel (attempt + 1) ⟨st1.polls, st1.sleeps + 1, st1.tokens⟩
    | .ok code message ts tsm videos =>
      if code ≠ some 0 then
        pollAux s fuel (attempt + 1)
          ⟨st1.polls, st1.sleeps + 1,
           if authIndicated (message.getD "Unknown error") then st1.tokens + 1 else st1.tokens⟩
      else if ts = some "failed" then
        (.failed (tsm.getD "Unknown error"), st1)
      else if ts = some "succeed" then
        match videos with
        | [] => (.failed "No video in result", st1)
        | v :: _ => (.completed v.url v.duration, st1)
      else
        pollAux s fuel (attempt + 1) ⟨st1.polls, st1.sleeps + 1, st1.tokens⟩

def max_attempts : Nat := 100

def pollTaskStatus (s : Nat → PollResponse) : PollResult × PollStats :=
  pollAux s max_attempts 0 ⟨0, 0, 1⟩

/-- A response on which the loop continues to the next attempt (exception,
non-zero code, or a non-terminal status string). -/
def continuesOn : PollResponse → Bool
  | .exn => true
  | .ok code _ ts _ _ =>
    if code ≠ some 0 then true
    else if ts = some "failed" then false
    else if ts = some "succeed" then false
    else true

/-- A status response `{"code": 0, "data": {"task_status": "processing"}}`. -/
def procResp : PollResponse := .ok (some 0) none (some "processing") none []

def seqProcessing : Nat → PollResponse := fun _ => procResp

/-- A provider failure whose message happens to equal the loop's own timeout
message. -/
def failCoincideResp : PollResponse :=
  .ok (some 0) none (some "failed") (some "Maximum polling attempts reached") []

def seqFailCoincide : Nat → PollResponse := fun _ => failCoincideResp

def succTwoResp : PollResponse :=
  .ok (some 0) none (some "succeed") none
    [⟨some "https://cdn/v1.mp4", some "5"⟩, ⟨some "https://cdn/v2.mp4", some "10"⟩]

def succEmptyResp : PollResponse := .ok (some 0) none (some "succeed") none []

def seqPPS : Nat → PollResponse := fun i => if i < 2 then procResp else succTwoResp

def seqPPSEmpty : Nat → PollResponse := fun i => if i < 2 then procResp else succEmptyResp

/-- A response with non-zero code whose message is classified as an
authentication failure. -/
def authFailResp : PollResponse := .ok (some 1) (some "auth expired") none none []

def seqAuthSucceedAt99 : Nat → PollResponse :=
  fun i => if i = 99 then succTwoResp else authFailResp

def seqAuthSucceedAt100 : Nat → PollResponse :=
  fun i => if i = 100 then succTwoResp else authFailResp

/-! ### Token issuer (`KlingGenerator._generate_jwt_token`)

Full embedding of the cryptographic path the code takes through the Python
standard library: UTF-8 encoding, `json.dumps(..., separators=(',', ':'))`
with its default ASCII escaping, SHA-256, HMAC-SHA256 (`hmac.new(key, msg,
hashlib.sha256)`), and `base64.urlsafe_b64encode(...).rstrip('=')`.
32-bit words are `Nat` reduced modulo 2^32.  The two `int(time.time())`
calls are modelled with one fixed `now : Int` (the claim fixes the current
time). -/

/-- UTF-8 encoding of one code point. -/
def utf8Char (c : Char) : List Nat :=
  let n := c.toNat
  if n < 128 then [n]
  else if n < 2048 then [192 + n / 64, 128 + n % 64]
  else if n < 65536 then [224 + n / 4096, 128 + n / 64 % 64, 128 + n % 64]
  else [240 + n / 262144, 128 + n / 4096 % 64, 128 + n / 64 % 64, 128 + n % 64]

def utf8Bytes (s : String) : List Nat := (s.data.map utf8Char).flatten

/-- Lowercase hex digit. -/
def hexDigitL (n : Nat) : Char := "0123456789abcdef".data.getD n '0'

def hex4 (n : Nat) : String :=
  String.mk [hexDigitL (n / 4096 % 16), hexDigitL (n / 256 % 16),
             hexDigitL (n / 16 % 16), hexDigitL (n % 16)]

/-- One character of `json.dumps`'s default (ensure_ascii) string encoder:
`"` and `\` get a backslash escape, printable ASCII is kept, the short
escapes cover backspace/tab/newline/formfeed/return, anything else becomes
`\uXXXX` (astral code points as a surrogate pair). -/
def jsonEscapeChar (c : Char) : String :=
  if c = '"' then "\\\""
  else if c = '\\' then "\\\\"
  else if 32 ≤ c.toNat ∧ c.toNat ≤ 126 then String.mk [c]
  else if c.toNat = 8 then "\\b"
  else if c.toNat = 9 then "\\t"
  else if c.toNat = 10 then "\\n"
  else if c.toNat = 12 then "\\f"
  else if c.toNat = 13 then "\\r"
  else if c.toNat < 65536 then "\\u" ++ hex4 c.toNat
  else
    "\\u" ++ hex4 (55296 + (c.toNat - 65536) / 1024) ++
    "\\u" ++ hex4 (56320 + (c.toNat - 65536) % 1024)

/-- `json.dumps` of a Python string. -/
def pyJsonStr (s : String) : String :=
  "\"" ++ String.join (s.data.map jsonEscapeChar) ++ "\""

/-- `json.dumps({"alg": "HS256", "typ": "JWT"}, separators=(',', ':'))`. -/
def headerJson : String := "\x7b\"alg\":\"HS256\",\"typ\":\"JWT\"\x7d"

/-- `json.dumps` of the payload `{"iss": access, "exp": now+1800, "nbf": now-5}`
with compact separators. -/
def payloadJson (now : Int) (access : String) : String :=
  "\x7b\"iss\":" ++ pyJsonStr access ++ ",\"exp\":" ++ toString (now + 1800) ++
  ",\"nbf\":" ++ toString (now - 5) ++ "\x7d"

/-- Reduction modulo 2^32. -/
def w32 (n : Nat) : Nat := n % 4294967296

def rotr32 (n x : Nat) : Nat := w32 (x / 2 ^ n + x % 2 ^ n * 2 ^ (32 - n))

def shr32 (n x : Nat) : Nat := x / 2 ^ n

def chB (e f g : Nat) : Nat := (e &&& f) ^^^ ((4294967295 - w32 e) &&& g)

def majB (a b c : Nat) : Nat := (a &&& b) ^^^ (a &&& c) ^^^ (b &&& c)

def bs0 (x : Nat) : Nat := rotr32 2 x ^^^ rotr32 13 x ^^^ rotr32 22 x

def bs1 (x : Nat) : Nat := rotr32 6 x ^^^ rotr32 11 x ^^^ rotr32 25 x

def ss0 (x : Nat) : Nat := rotr32 7 x ^^^ rotr32 18 x ^^^ shr32 3 x

def ss1 (x : Nat) : Nat := rotr32 17 x ^^^ rotr32 19 x ^^^ shr32 10 x

/-- SHA-256 working state (eight 32-bit words). -/
structure Hash8 where
  a : Nat
  b : Nat
  c : Nat
  d : Nat
  e : Nat
  f : Nat
  g : Nat
  h : Nat

/-- The eight initial hash words of SHA-256 (decimal). -/
def shaInitState : Hash8 :=
  ⟨1779033703, 3144134277, 1013904242, 2773480762,
   1359893119, 2600822924, 528734635, 1541459225⟩

/-- The 64 SHA-256 round constants (decimal). -/
def K256 : List Nat :=
  [1116352408, 1899447441, 3049323471, 3921009573,
   961987163, 1508970993, 2453635748, 2870763221,
   3624381080, 310598401, 607225278, 1426881987,
   1925078388, 2162078206, 2614888103, 3248222580,
   3835390401, 4022224774, 264347078, 604807628,
   770255983, 1249150122, 1555081692, 1996064986,
   2554220882, 2821834349, 2952996808, 3210313671,
   3336571891, 3584528711, 113926993, 338241895,
   666307205, 773529912, 1294757372, 1396182291,
   1695183700, 1986661051, 2177026350, 2456956037,
   2730485921, 2820302411, 3259730800, 3345764771,
   3516065817, 3600352804, 4094571909, 275423344,
   430227734, 506948616, 659060556, 883997877,
   958139571, 1322822218, 1537002063, 1747873779,
   1955562222, 2024104815, 2227730452, 2361852424,
   2428436474, 2756734187, 3204031479, 3329325298]

/-- Big-endian 4-byte words from bytes. -/
def toWords : List Nat → List Nat
  | a :: b :: c :: d :: rest => (((a * 256 + b) * 256 + c) * 256 + d) :: toWords rest
  | _ => []

/-- Message schedule extension, run 48 times to take 16 words to 64. -/
def extendW : Nat → List Nat → List Nat
  | 0, w => w
  | n + 1, w =>
    extendW n
      (w ++ [w32 (ss1 (w.getD (w.length - 2) 0) + w.getD (w.length - 7) 0 +
                  ss0 (w.getD (w.length - 15) 0) + w.getD (w.length - 16) 0)])

def roundStep (st : Hash8) (kw : Nat) : Hash8 :=
  let t1 := w32 (st.h + bs1 st.e + chB st.e st.f st.g + kw)
  let t2 := w32 (bs0 st.a + majB st.a st.b st.c)
  ⟨w32 (t1 + t2), st.a, st.b, st.c, w32 (st.d + t1), st.e, st.f, st.g⟩

def compressBlock (st : Hash8) (block : List Nat) : Hash8 :=
  let w := extendW 48 (toWords block)
  let kw := (K256.zip w).map (fun p => w32 (p.1 + p.2))
  let fin := kw.foldl roundStep st
  ⟨w32 (st.a + fin.a), w32 (st.b + fin.b), w32 (st.c + fin.c), w32 (st.d + fin.d),
   w32 (st.e + fin.e), w32 (st.f + fin.f), w32 (st.g + fin.g), w32 (st.h + fin.h)⟩

/-- 64-byte blocks (the fuel keeps the recursion structural; callers pass the
list length, which bounds the number of blocks). -/
def chunksOf64 : Nat → List Nat → List (List Nat)
  | 0, _ => []
  | _, [] => []
  | fuel + 1, l => l.take 64 :: chunksOf64 fuel (l.drop 64)

def be8 (n : Nat) : List Nat :=
  [n / 2 ^ 56 % 256, n / 2 ^ 48 % 256, n / 2 ^ 40 % 256, n / 2 ^ 32 % 256,
   n / 2 ^ 24 % 256, n / 2 ^ 16 % 256, n / 2 ^ 8 % 256, n % 256]

def be4 (n : Nat) : List Nat :=
  [n / 2 ^ 24 % 256, n / 2 ^ 16 % 256, n / 2 ^ 8 % 256, n % 256]

/-- SHA-256 padding: 0x80, zeros to 56 mod 64, 8-byte big-endian bit length. -/
def sha256Pad (msg : List Nat) : List Nat :=
  msg ++ 128 :: (List.replicate ((56 + 64 - (msg.length + 1) % 64) % 64) 0 ++
    be8 (msg.length * 8))

def sha256 (msg : List Nat) : List Nat :=
  let padded := sha256Pad msg
  let st := (chunksOf64 padded.length padded).foldl compressBlock shaInitState
  be4 st.a ++ be4 st.b ++ be4 st.c ++ be4 st.d ++ be4 st.e ++ be4 st.f ++
    be4 st.g ++ be4 st.h

/-- HMAC-SHA256 with the 64-byte block size used for SHA-256. -/
def hmacSha256 (key msg : List Nat) : List Nat :=
  let k0 := if 64 < key.length then sha256 key else key
  let kp := k0 ++ List.replicate (64 - k0.length) 0
  sha256 (kp.map (fun b => b ^^^ 92) ++ sha256 (kp.map (fun b => b ^^^ 54) ++ msg))

/-- The URL-safe base64 alphabet of `base64.urlsafe_b64encode`. -/
def b64Alphabet : List Char :=
  "ABCDEFGHIJKLMNOPQRSTUVWXYZabcdefghijklmnopqrstuvwxyz0123456789-_".data

def b64Digit (n : Nat) : Char := b64Alphabet.getD n 'A'

/-- base64 of a byte list, three bytes at a time, with '=' padding. -/
def b64urlChunks : List Nat → List Char
  | [] => []
  | [a] => [b64Digit (a / 4), b64Digit (a % 4 * 16), '=', '=']
  | [a, b] => [b64Digit (a / 4), b64Digit (a % 4 * 16 + b / 16), b64Digit (b % 16 * 4), '=']
  | a :: b :: c :: rest =>
    b64Digit (a / 4) :: b64Digit (a % 4 * 16 + b / 16) ::
    b64Digit (b % 16 * 4 + c / 64) :: b64Digit (c % 64) :: b64urlChunks rest

/-- `.rstrip('=')`. -/
def rstripEq (cs : List Char) : List Char :=
  ((cs.reverse.dropWhile (fun c => c == '=')).reverse)

/-- `base64.urlsafe_b64encode(bs).decode('utf-8').rstrip('=')`. -/
def b64urlNoPad (bs : List Nat) : String := String.mk (rstripEq (b64urlChunks bs))

/-- `_generate_jwt_token`: base64url header and payload, HMAC-SHA256 signature
over `header.payload` under the secret key, all without padding, joined by
dots. -/
def generate_jwt_token (now : Int) (access secret : String) : String :=
  let header_b64 := b64urlNoPad (utf8Bytes headerJson)
  let payload_b64 := b64urlNoPad (utf8Bytes (payloadJson now access))
  let message := header_b64 ++ "." ++ payload_b64
  let signature := hmacSha256 (utf8Bytes secret) (utf8Bytes message)
  message ++ "." ++ b64urlNoPad signature

def jwtHeaderB64 : String := b64urlNoPad (utf8Bytes headerJson)

def jwtPayloadB64 (now : Int) (access : String) : String :=
  b64urlNoPad (utf8Bytes (payloadJson now access))

def jwtSignatureB64 (now : Int) (access secret : String) : String :=
  b64urlNoPad (hmacSha256 (utf8Bytes secret)
    (utf8Bytes (jwtHeaderB64 ++ "." ++ jwtPayloadB64 now access)))

/-! ### Generator construction (`KlingGenerator.__init__`)

The constructor reads the environment (`os.getenv` with the defaults of the
source), stores the fields, and — when the issuer key or the secret key is
absent — only prints "Warning: KLING API credentials not set properly" and
returns normally; `cfg_scale` is modelled pre-parsed (a malformed
`KLING_CFG_SCALE` is outside the claims considered here). -/

structure KlingEnv where
  accessKey : Option String
  secretKey : Option String
  endpoint : Option String
  model : Option String
  maxDuration : Option String
  mode : Option String
  cfgScale : Option ℚ

structure KlingGenerator where
  access_key : String
  secret_key : String
  endpoint : String
  model : String
  max_duration : String
  mode : String
  cfg_scale : ℚ

/-- `KlingGenerator.__init__`: total; the second component records whether the
credentials warning was printed. -/
def klingInit (env : KlingEnv) : KlingGenerator × Bool :=
  let g : KlingGenerator :=
    { access_key := env.accessKey.getD ""
      secret_key := env.secretKey.getD ""
      endpoint := env.endpoint.getD "https://api.klingai.com"
      model := env.model.getD "kling-v1"
      max_duration := env.maxDuration.getD "10"
      mode := env.mode.getD "std"
      cfg_scale := env.cfgScale.getD (1 / 2) }
  (g, g.access_key == "" || g.secret_key == "")

def emptyKlingEnv : KlingEnv := ⟨none, none, none, none, none, none, none⟩

/-! ### Media merger (`audio_video_sync.merge_audio_video`)

The filesystem and the external tools are a `MergeEnv` oracle (`duration`
is one `ffprobe` run — `get_duration`; `ffmpegRun` the single transcode
process built by `sync_audio_to_video`; probing the same unchanged file
twice returns the same result, so one deterministic `duration` function
serves both the merger's and `sync_audio_to_video`'s probes).  The result
is `none` for divergence (the tempo loop running out of fuel, which in
Python is the non-terminating while loop), otherwise an
`Except String MergeResult` — where `.error` would be an exception
escaping to the caller — together with the ordered trace of external
process invocations performed. -/

/-- Index after the last '/' (0-based index of the last slash), for
`os.path.dirname`. -/
def rfindSlash : List Char → Option Nat
  | [] => none
  | c :: rest =>
    match rfindSlash rest with
    | some i => some (i + 1)
    | none => if c = '/' then some 0 else none

/-- `os.path.dirname` (posix): everything before the last '/', with trailing
slashes stripped unless the head is all slashes. -/
def pyDirname (p : String) : String :=
  match rfindSlash p.data with
  | none => ""
  | some i =>
    let head := p.data.take (i + 1)
    if head.all (fun c => c == '/') then String.mk head
    else String.mk ((head.reverse.dropWhile (fun c => c == '/')).reverse)

structure MergeEnv where
  pathExists : String → Bool
  duration : String → Except String ℚ
  makedirs : String → Except String Unit
  ffmpegRun : String → String → String → Except String Unit

/-- One external process invocation (or directory creation) for the trace. -/
inductive ExtCall where
  | probe (path : String) : ExtCall
  | mkdir (path : String) : ExtCall
  | transcode (video audio output : String) : ExtCall
deriving DecidableEq

structure MergeSuccess where
  video_duration : ℚ
  audio_duration : ℚ
  output_duration : ℚ
  speed_ratio : ℚ
deriving DecidableEq

/-- The dict `merge_audio_video` returns: the success record (with both input
durations, the output duration and the speed ratio) or
`{"success": False, "error": ...}`. -/
inductive MergeResult where
  | success (s : MergeSuccess) : MergeResult
  | failure (error : String) : MergeResult
deriving DecidableEq

/-- The body of the merger's try block from `sync_audio_to_video` on: re-probe
both inputs, `ratio = da / dv` (a `ZeroDivisionError` if the video duration
is zero), build the tempo chain (divergence when the ratio is not positive
and the fuel runs out), run the single ffmpeg transcode, then back in the
merger probe the output and build the success record; `dv0`/`da0` are the
durations the merger probed first (equal to `dv`/`da` since the oracle is
deterministic, so `da0 / dv0` cannot divide by zero here). -/
def syncPart (env : MergeEnv) (fuel : Nat) (v a o : String) (dv0 da0 : ℚ)
    (pre : List ExtCall) : Option (Except String MergeSuccess × List ExtCall) :=
  match env.duration v with
  | .error e => some (.error e, pre ++ [.probe v])
  | .ok dv =>
  match env.duration a with
  | .error e => some (.error e, pre ++ [.probe v, .probe a])
  | .ok da =>
  if dv = 0 then some (.error "float division by zero", pre ++ [.probe v, .probe a])
  else
  match make_atempo_chain fuel (da / dv) with
  | none => none
  | some _ =>
  match env.ffmpegRun v a o with
  | .error e => some (.error e, pre ++ [.probe v, .probe a, .transcode v a o])
  | .ok _ =>
  match env.duration o with
  | .error e =>
    some (.error e, pre ++ [.probe v, .probe a, .transcode v a o, .probe o])
  | .ok dout =>
    some (.ok ⟨dv0, da0, dout, da0 / dv0⟩,
      pre ++ [.probe v, .probe a, .transcode v a o, .probe o])

/-- The merger's try block: probe both inputs, create the output directory
when it is named and missing, then `syncPart`. -/
def mergeTry (env : MergeEnv) (fuel : Nat) (v a o : String) :
    Option (Except String MergeSuccess × List ExtCall) :=
  match env.duration v with
  | .error e => some (.error e, [.probe v])
  | .ok dv0 =>
  match env.duration a with
  | .error e => some (.error e, [.probe v, .probe a])
  | .ok da0 =>
  let dir := pyDirname o
  if dir = "" ∨ env.pathExists dir = true then
    syncPart env fuel v a o dv0 da0 [.probe v, .probe a]
  else
    match env.makedirs dir with
    | .error e => some (.error e, [.probe v, .probe a, .mkdir dir])
    | .ok _ => syncPart env fuel v a o dv0 da0 [.probe v, .probe a, .mkdir dir]

/-- `merge_audio_video`: the three precondition checks in source order
(missing video input, missing audio input, existing output without
overwrite), then the try block with its `except` converting any exception
into `{"success": False, "error": str(e)}`. -/
def merge_audio_video (env : MergeEnv) (fuel : Nat) (v a o : String) (overwrite : Bool) :
    Option (Except String MergeResult × List ExtCall) :=
  if env.pathExists v = false then
    some (.ok (.failure ("视频文件不存在: " ++ v)), [])
  else if env.pathExists a = false then
    some (.ok (.failure ("音频文件不存在: " ++ a)), [])
  else if env.pathExists o = true ∧ overwrite = false then
    some (.ok (.failure ("输出文件已存在: " ++ o ++ "。使用overwrite=True覆盖现有文件。")), [])
  else
    match mergeTry env fuel v a o with
    | none => none
    | some (.ok s, tr) => some (.ok (.success s), tr)
    | some (.error e, tr) => some (.ok (.failure e), tr)

/-- An environment whose filesystem reports every path as existing (durations
are irrelevant before the try block is reached). -/
def allExistsEnv : MergeEnv :=
  ⟨fun _ => true, fun _ => .error "probe unused", fun _ => .ok (), fun _ _ _ => .ok ()⟩

/-- An environment where only "out.mp4" exists. -/
def onlyOutputEnv : MergeEnv :=
  ⟨fun p => p == "out.mp4", fun _ => .error "probe unused", fun _ => .ok (),
   fun _ _ _ => .ok ()⟩

/-! ### Orchestration entry point (`KlingGenerator.generate_video`)

Everything the try block does that can raise is an oracle of `GenEnv`:
resolving an image reference to a URL or base64 payload
(`_get_image_as_url_or_base64`, also used for masks), the POST request with
its parsed JSON response, the poll responses, `os.makedirs` and the chunked
download.  The body follows the source's branch structure; the final
`except Exception` of `generate_video` converts an in-flight exception into
`{"status": "failed", "error": str(e)}`. -/

structure PostResponse where
  status_code : Int
  code : Option Int
  message : Option String
  task_id : Option String

structure MaskCfg where
  mask_path : Option String
  has_trajectories : Bool

structure GenEnv where
  resolveImage : String → Except String String
  postResponse : Except String PostResponse
  pollResponses : Nat → PollResponse
  makedirs : String → Except String Unit
  download : String → Except String Unit
  uuidStr : String

/-- The dict `generate_video` returns. -/
inductive GenResult where
  | failedR (error : String) : GenResult
  | completedR (url : Option String) (duration : Option String)
      (local_path : Option String) (path : Option String) : GenResult

/-- `s.split(',', 1)[1]`: the characters after the first comma, `none` when
there is no comma (Python raises IndexError there). -/
def afterComma : List Char → Option (List Char)
  | [] => none
  | c :: rest => if c = ',' then some rest else afterComma rest

/-- The `dynamic_masks` loop: resolve each configured mask path (any of which
can raise). -/
def resolveMasks (env : GenEnv) : List MaskCfg → Except String Unit
  | [] => pure ()
  | cfg :: rest =>
    match cfg.mask_path with
    | some p => do
      let _ ← env.resolveImage p
      resolveMasks env rest
    | none => resolveMasks env rest

/-- The try block of `generate_video`: token, image payload, masks, POST with
submission checks, poll loop, optional download of the artifact. -/
def genTry (g : KlingGenerator) (env : GenEnv) (now : Int) (image_path : String)
    (output_dir image_data static_mask : Option String)
    (dynamic_masks : Option (List MaskCfg)) : Except String GenResult := do
  let _jwt := generate_jwt_token now g.access_key g.secret_key
  let _image ← (match image_data with
    | some d =>
      match afterComma d.data with
      | some rest => Except.ok (String.mk rest)
      | none => Except.error "list index out of range"
    | none => env.resolveImage image_path)
  let _smask ← (match static_mask with
    | some m =>
      if m.startsWith "http://" || m.startsWith "https://" then Except.ok ()
      else do
        let _ ← env.resolveImage m
        Except.ok ()
    | none => Except.ok ())
  let _dmasks ← (match dynamic_masks with
    | some cfgs => resolveMasks env cfgs
    | none => Except.ok ())
  let resp ← env.postResponse
  if resp.status_code ≠ 200 then
    Except.error ("Video generation request failed with status code " ++
      toString resp.status_code)
  else if resp.code ≠ some 0 then
    Except.error ("Video generation request failed: " ++ resp.message.getD "Unknown error")
  else if resp.task_id.getD "" = "" then
    Except.error "Failed to get video generation task ID"
  else
    match (pollTaskStatus env.pollResponses).1 with
    | .failed e => Except.ok (.failedR e)
    | .completed url dur =>
      if (output_dir.getD "").isEmpty || (url.getD "").isEmpty then
        Except.ok (.completedR url dur none none)
      else do
        let dir := output_dir.getD ""
        let file := dir ++ "/" ++ env.uuidStr ++ ".mp4"
        let _ ← env.makedirs dir
        let _ ← env.download (url.getD "")
        Except.ok (.completedR url dur (some file)
          (some ("/api/videos/" ++ env.uuidStr ++ ".mp4")))

def generate_video (g : KlingGenerator) (env : GenEnv) (now : Int)
    (image_path script : String) (output_dir image_data static_mask : Option String)
    (dynamic_masks : Option (List MaskCfg)) : Except String GenResult :=
  match genTry g env now image_path output_dir image_data static_mask dynamic_masks with
  | .ok r => .ok r
  | .error e => .ok (.failedR e)

/-- An `Except` value that is an exception escaping to the caller. -/
def raisesExc {α : Type} : Except String α → Bool
  | .error _ => true
  | .ok _ => false

/-- A merger outcome that is an exception escaping to the caller. -/
def raisesOpt {α : Type} : Option (Except String α × List ExtCall) → Bool
  | some (.error _, _) => true
  | some (.ok _, _) => false
  | none => false

/-! ### Theorems about the tempo chain planner -/

theorem loopHalve_spec : ∀ (f : Nat) (r : ℚ) (l : List ℚ) (r' : ℚ),
    loopHalve f r = some (l, r') →
    (∀ x ∈ l, x = 2) ∧ l.prod * r' = r ∧ r' ≤ 2 ∧ (r' = r ∨ 1 < r') := by
  intro f
  induction f with
  | zero =>
    intro r l r' h
    by_cases hr : 2 < r
    · simp only [loopHalve, if_pos hr] at h
      exact Option.noConfusion h
    · simp only [loopHalve, if_neg hr, Option.some.injEq, Prod.mk.injEq] at h
      obtain ⟨rfl, rfl⟩ := h
      exact ⟨by simp, by simp, le_of_not_lt hr, Or.inl rfl⟩
  | succ f ih =>
    intro r l r' h
    by_cases hr : 2 < r
    · simp only [loopHalve, if_pos hr] at h
      rcases h0 : loopHalve f (r / 2) with _ | ⟨l0, r0⟩
      · rw [h0] at h; exact Option.noConfusion h
      · rw [h0] at h
        simp only [Option.map_some', Option.some.injEq, Prod.mk.injEq] at h
        obtain ⟨rfl, rfl⟩ := h
        obtain ⟨hall, hprod, hle, hcase⟩ := ih (r / 2) l0 r0 h0
        refine ⟨?_, ?_, hle, Or.inr ?_⟩
        · intro x hx
          rcases List.mem_cons.mp hx with h2 | h2
          · exact h2
          · exact hall x h2
        · rw [List.prod_cons, mul_assoc, hprod]
          ring
        · rcases hcase with h2 | h2
          · rw [h2]; linarith
          · exact h2
    · simp only [loopHalve, if_neg hr, Option.some.injEq, Prod.mk.injEq] at h
      obtain ⟨rfl, rfl⟩ := h
      exact ⟨by simp, by simp, le_of_not_lt hr, Or.inl rfl⟩

theorem loopDouble_spec : ∀ (f : Nat) (r : ℚ) (l : List ℚ) (r' : ℚ),
    loopDouble f r = some (l, r') →
    (∀ x ∈ l, x = 1 / 2) ∧ l.prod * r' = r ∧ 1 / 2 ≤ r' ∧ (r' = r ∨ r' < 1) := by
  intro f
  induction f with
  | zero =>
    intro r l r' h
    by_cases hr : r < 1 / 2
    · simp only [loopDouble, if_pos hr] at h
      exact Option.noConfusion h
    · simp only [loopDouble, if_neg hr, Option.some.injEq, Prod.mk.injEq] at h
      obtain ⟨rfl, rfl⟩ := h
      exact ⟨by simp, by simp, le_of_not_lt hr, Or.inl rfl⟩
  | succ f ih =>
    intro r l r' h
    by_cases hr : r < 1 / 2
    · simp only [loopDouble, if_pos hr] at h
      rcases h0 : loopDouble f (r / (1 / 2)) with _ | ⟨l0, r0⟩
      · rw [h0] at h; exact Option.noConfusion h
      · rw [h0] at h
        simp only [Option.map_some', Option.some.injEq, Prod.mk.injEq] at h
        obtain ⟨rfl, rfl⟩ := h
        obtain ⟨hall, hprod, hge, hcase⟩ := ih (r / (1 / 2)) l0 r0 h0
        have hdiv : r / (1 / 2) = 2 * r := by ring
        refine ⟨?_, ?_, hge, Or.inr ?_⟩
        · intro x hx
          rcases List.mem_cons.mp hx with h2 | h2
          · exact h2
          · exact hall x h2
        · rw [List.prod_cons, mul_assoc, hprod, hdiv]
          ring
        · rw [hdiv] at hcase
          rcases hcase with h2 | h2
          · rw [h2]; linarith
          · exact h2
    · simp only [loopDouble, if_neg hr, Option.some.injEq, Prod.mk.injEq] at h
      obtain ⟨rfl, rfl⟩ := h
      exact ⟨by simp, by simp, le_of_not_lt hr, Or.inl rfl⟩

theorem loopHalve_of_not_gt (f : Nat) (r : ℚ) (h : ¬ 2 < r) :
    loopHalve f r = some ([], r) := by
  cases f <;> simp only [loopHalve, if_neg h]

theorem loopDouble_of_ge (f : Nat) (r : ℚ) (h : ¬ r < 1 / 2) :
    loopDouble f r = some ([], r) := by
  cases f <;> simp only [loopDouble, if_neg h]

theorem loopDouble_none_of_nonpos : ∀ (f : Nat) (r : ℚ), r ≤ 0 → loopDouble f r = none := by
  intro f
  induction f with
  | zero =>
    intro r hr
    have h1 : r < 1 / 2 := by linarith
    simp only [loopDouble, if_pos h1]
  | succ f ih =>
    intro r hr
    have h1 : r < 1 / 2 := by linarith
    have h2 : r / (1 / 2) ≤ 0 := by
      have h3 : r / (1 / 2) = 2 * r := by ring
      rw [h3]; linarith
    simp only [loopDouble, if_pos h1, ih (r / (1 / 2)) h2, Option.map_none']

theorem loopHalve_isSome_of_le : ∀ (n : Nat) (r : ℚ), r ≤ 2 ^ n * 2 →
    (loopHalve n r).isSome = true := by
  intro n
  induction n with
  | zero =>
    intro r h
    have h2 : ¬ 2 < r := by
      intro hc
      have : (2 : ℚ) ^ 0 * 2 = 2 := by norm_num
      rw [this] at h
      linarith
    simp only [loopHalve, if_neg h2, Option.isSome_some]
  | succ n ih =>
    intro r h
    by_cases hr : 2 < r
    · have hrec : r / 2 ≤ 2 ^ n * 2 := by
        rw [div_le_iff₀ (by norm_num : (0:ℚ) < 2)]
        calc r ≤ 2 ^ (n + 1) * 2 := h
        _ = 2 ^ n * 2 * 2 := by ring
      obtain ⟨p, hp⟩ := Option.isSome_iff_exists.mp (ih (r / 2) hrec)
      simp only [loopHalve, if_pos hr, hp, Option.map_some', Option.isSome_some]
    · simp only [loopHalve, if_neg hr, Option.isSome_some]

theorem loopDouble_isSome_of_le : ∀ (n : Nat) (r : ℚ), 1 / 2 ≤ 2 ^ n * r →
    (loopDouble n r).isSome = true := by
  intro n
  induction n with
  | zero =>
    intro r h
    have h2 : ¬ r < 1 / 2 := by
      intro hc
      have : (2 : ℚ) ^ 0 * r = r := by norm_num
      rw [this] at h
      linarith
    simp only [loopDouble, if_neg h2, Option.isSome_some]
  | succ n ih =>
    intro r h
    by_cases hr : r < 1 / 2
    · have hrec : 1 / 2 ≤ 2 ^ n * (r / (1 / 2)) := by
        have h2 : r / (1 / 2) = 2 * r := by ring
        rw [h2]
        calc (1 : ℚ) / 2 ≤ 2 ^ (n + 1) * r := h
        _ = 2 ^ n * (2 * r) := by ring
      obtain ⟨p, hp⟩ := Option.isSome_iff_exists.mp (ih (r / (1 / 2)) hrec)
      simp only [loopDouble, if_pos hr, hp, Option.map_some', Option.isSome_some]
    · simp only [loopDouble, if_neg hr, Option.isSome_some]

theorem loopHalve_mono_succ (f : Nat) : ∀ (r : ℚ) (p : List ℚ × ℚ),
    loopHalve f r = some p → loopHalve (f + 1) r = some p := by
  induction f with
  | zero =>
    intro r p h
    by_cases hr : 2 < r
    · simp only [loopHalve, if_pos hr] at h
      exact Option.noConfusion h
    · simp only [loopHalve, if_neg hr] at h ⊢
      exact h
  | succ f ih =>
    intro r p h
    have hgoal : loopHalve (f + 1 + 1) r =
        if 2 < r then (loopHalve (f + 1) (r / 2)).map (fun p => (2 :: p.1, p.2))
        else some ([], r) := rfl
    have hstep : loopHalve (f + 1) r =
        if 2 < r then (loopHalve f (r / 2)).map (fun p => (2 :: p.1, p.2))
        else some ([], r) := rfl
    rw [hstep] at h
    rw [hgoal]
    by_cases hr : 2 < r
    · rw [if_pos hr] at h ⊢
      rcases h0 : loopHalve f (r / 2) with _ | q
      · rw [h0] at h; exact Option.noConfusion h
      · rw [h0] at h
        rw [ih (r / 2) q h0]
        exact h
    · rw [if_neg hr] at h ⊢
      exact h

theorem loopHalve_mono : ∀ (g f : Nat), f ≤ g → ∀ (r : ℚ) (p : List ℚ × ℚ),
    loopHalve f r = some p → loopHalve g r = some p := by
  intro g
  induction g with
  | zero =>
    intro f hf r p h
    have h0 : f = 0 := Nat.le_zero.mp hf
    rwa [h0] at h
  | succ g ih =>
    intro f hf r p h
    rcases eq_or_lt_of_le hf with h1 | h1
    · rwa [h1] at h
    · exact loopHalve_mono_succ g r p (ih f (Nat.lt_succ_iff.mp h1) r p h)

theorem loopDouble_mono_succ (f : Nat) : ∀ (r : ℚ) (p : List ℚ × ℚ),
    loopDouble f r = some p → loopDouble (f + 1) r = some p := by
  induction f with
  | zero =>
    intro r p h
    by_cases hr : r < 1 / 2
    · simp only [loopDouble, if_pos hr] at h
      exact Option.noConfusion h
    · simp only [loopDouble, if_neg hr] at h ⊢
      exact h
  | succ f ih =>
    intro r p h
    have hgoal : loopDouble (f + 1 + 1) r =
        if r < 1 / 2 then (loopDouble (f + 1) (r / (1 / 2))).map (fun p => (1 / 2 :: p.1, p.2))
        else some ([], r) := rfl
    have hstep : loopDouble (f + 1) r =
        if r < 1 / 2 then (loopDouble f (r / (1 / 2))).map (fun p => (1 / 2 :: p.1, p.2))
        else some ([], r) := rfl
    rw [hstep] at h
    rw [hgoal]
    by_cases hr : r < 1 / 2
    · rw [if_pos hr] at h ⊢
      rcases h0 : loopDouble f (r / (1 / 2)) with _ | q
      · rw [h0] at h; exact Option.noConfusion h
      · rw [h0] at h
        rw [ih (r / (1 / 2)) q h0]
        exact h
    · rw [if_neg hr] at h ⊢
      exact h

theorem loopDouble_mono : ∀ (g f : Nat), f ≤ g → ∀ (r : ℚ) (p : List ℚ × ℚ),
    loopDouble f r = some p → loopDouble g r = some p := by
  intro g
  induction g with
  | zero =>
    intro f hf r p h
    have h0 : f = 0 := Nat.le_zero.mp hf
    rwa [h0] at h
  | succ g ih =>
    intro f hf r p h
    rcases eq_or_lt_of_le hf with h1 | h1
    · rwa [h1] at h
    · exact loopDouble_mono_succ g r p (ih f (Nat.lt_succ_iff.mp h1) r p h)

theorem prod_pos_of_all_two (l : List ℚ) (h : ∀ x ∈ l, x = 2) : 0 < l.prod := by
  induction l with
  | nil => simp
  | cons c t ih =>
    rw [List.prod_cons]
    have hc : c = 2 := h c (List.mem_cons_self c t)
    have ht : 0 < t.prod := ih (fun x hx => h x (List.mem_cons_of_mem c hx))
    rw [hc]
    positivity

theorem atempoFuelBound_halve (r : ℚ) (hr : 0 < r) : r ≤ 2 ^ r.num.natAbs * 2 := by
  have hnum : (0 : ℤ) < r.num := Rat.num_pos.mpr hr
  have hden : (1 : ℚ) ≤ (r.den : ℚ) := by
    have h0 := r.den_pos
    exact_mod_cast h0
  have h1 : r ≤ (r.num : ℚ) := by
    conv_lhs => rw [← Rat.num_div_den r]
    exact div_le_self (by exact_mod_cast hnum.le) hden
  have h2 : (r.num : ℚ) = (r.num.natAbs : ℚ) := by
    rw [Int.cast_natAbs]
    norm_cast
    exact (abs_of_pos hnum).symm
  have h3 : (r.num.natAbs : ℚ) < 2 ^ r.num.natAbs := by
    exact_mod_cast Nat.lt_two_pow r.num.natAbs
  have h4 : (2 : ℚ) ^ r.num.natAbs ≤ 2 ^ r.num.natAbs * 2 := by
    nlinarith [pow_pos (show (0:ℚ) < 2 by norm_num) r.num.natAbs]
  calc r ≤ (r.num : ℚ) := h1
  _ = (r.num.natAbs : ℚ) := h2
  _ ≤ 2 ^ r.num.natAbs := h3.le
  _ ≤ 2 ^ r.num.natAbs * 2 := h4

theorem atempoFuelBound_double (r : ℚ) (hr : 0 < r) : 1 / 2 ≤ 2 ^ r.den * r := by
  have hnum : (1 : ℚ) ≤ (r.num : ℚ) := by
    have h0 : (0 : ℤ) < r.num := Rat.num_pos.mpr hr
    exact_mod_cast h0
  have hden0 : (0 : ℚ) < (r.den : ℚ) := by exact_mod_cast r.den_pos
  have h1 : 1 / (r.den : ℚ) ≤ r := by
    conv_rhs => rw [← Rat.num_div_den r]
    gcongr
  have h2 : (r.den : ℚ) ≤ 2 ^ r.den := by
    exact_mod_cast (Nat.lt_two_pow r.den).le
  have h3 : (1 : ℚ) ≤ 2 ^ r.den * (1 / (r.den : ℚ)) := by
    rw [mul_one_div, le_div_iff₀ hden0, one_mul]
    exact h2
  have h4 : 2 ^ r.den * (1 / (r.den : ℚ)) ≤ 2 ^ r.den * r := by
    apply mul_le_mul_of_nonneg_left h1
    positivity
  linarith

theorem make_atempo_chain_eq_of_halve (fuel : Nat) (r : ℚ) (l1 : List ℚ) (r1 : ℚ)
    (h1 : loopHalve fuel r = some (l1, r1)) :
    make_atempo_chain fuel r =
      match loopDouble fuel r1 with
      | none => none
      | some (l2, r2) => some ((l1 ++ l2).map (fun x => ("atempo", x)) ++ [("atempo", r2)]) := by
  rw [make_atempo_chain, h1]

theorem make_atempo_chain_isSome (r : ℚ) (hr : 0 < r) :
    (make_atempo_chain (atempoFuelBound r) r).isSome = true := by
  have hh : (loopHalve r.num.natAbs r).isSome = true :=
    loopHalve_isSome_of_le r.num.natAbs r (atempoFuelBound_halve r hr)
  obtain ⟨⟨l1, r1⟩, h1⟩ := Option.isSome_iff_exists.mp hh
  have h1fuel : loopHalve (atempoFuelBound r) r = some (l1, r1) :=
    loopHalve_mono (atempoFuelBound r) r.num.natAbs (le_max_left _ _) r (l1, r1) h1
  obtain ⟨hall, hprod, hle, hcase⟩ := loopHalve_spec r.num.natAbs r l1 r1 h1
  have hd : ∃ q, loopDouble (atempoFuelBound r) r1 = some q := by
    rcases hcase with hc | hc
    · have hs := loopDouble_isSome_of_le r.den r (atempoFuelBound_double r hr)
      obtain ⟨p, hp⟩ := Option.isSome_iff_exists.mp hs
      refine ⟨p, ?_⟩
      rw [hc]
      exact loopDouble_mono (atempoFuelBound r) r.den (le_max_right _ _) r p hp
    · have hge : ¬ r1 < 1 / 2 := by linarith
      exact ⟨([], r1), loopDouble_of_ge (atempoFuelBound r) r1 hge⟩
  obtain ⟨⟨l2, r2⟩, h2⟩ := hd
  rw [make_atempo_chain_eq_of_halve (atempoFuelBound r) r l1 r1 h1fuel, h2]
  rfl

theorem make_atempo_chain_spec (fuel : Nat) (r : ℚ) (parts : List (String × ℚ))
    (h : make_atempo_chain fuel r = some parts) :
    parts.isEmpty = false ∧ (parts.map Prod.snd).prod = r ∧ parts.all okFactor = true := by
  rcases h1 : loopHalve fuel r with _ | ⟨l1, r1⟩
  · rw [make_atempo_chain, h1] at h; exact Option.noConfusion h
  rw [make_atempo_chain_eq_of_halve fuel r l1 r1 h1] at h
  rcases h2 : loopDouble fuel r1 with _ | ⟨l2, r2⟩
  · rw [h2] at h; exact Option.noConfusion h
  rw [h2] at h
  obtain ⟨hall1, hprod1, hle1, hcase1⟩ := loopHalve_spec fuel r l1 r1 h1
  obtain ⟨hall2, hprod2, hge2, hcase2⟩ := loopDouble_spec fuel r1 l2 r2 h2
  injection h with hparts
  subst hparts
  refine ⟨by simp, ?_, ?_⟩
  · rw [List.map_append, List.prod_append, List.map_map]
    have hsnd : (Prod.snd ∘ fun x : ℚ => (("atempo" : String), x)) = id := rfl
    rw [hsnd, List.map_id, List.prod_append]
    simp only [List.map_cons, List.map_nil, List.prod_cons, List.prod_nil]
    calc l1.prod * l2.prod * (r2 * 1) = l1.prod * (l2.prod * r2) := by ring
    _ = l1.prod * r1 := by rw [hprod2]
    _ = r := hprod1
  · rw [List.all_eq_true]
    intro p hp
    rcases List.mem_append.mp hp with hmem | hmem
    · obtain ⟨x, hx, rfl⟩ := List.mem_map.mp hmem
      rcases List.mem_append.mp hx with hx1 | hx2
      · have hx2eq : x = 2 := hall1 x hx1
        subst hx2eq
        simp only [okFactor, decide_eq_true_eq, Bool.and_eq_true, beq_self_eq_true]
        refine ⟨⟨trivial, ?_⟩, ?_⟩ <;> norm_num
      · have hxeq : x = 1 / 2 := hall2 x hx2
        subst hxeq
        simp only [okFactor, decide_eq_true_eq, Bool.and_eq_true, beq_self_eq_true]
        refine ⟨⟨trivial, ?_⟩, ?_⟩ <;> norm_num
    · have hpeq : p = ("atempo", r2) := by simpa using hmem
      subst hpeq
      have hub : r2 ≤ 2 := by
        rcases hcase2 with hc | hc
        · rw [hc]; exact hle1
        · linarith
      simp only [okFactor, decide_eq_true_eq, Bool.and_eq_true, beq_self_eq_true]
      exact ⟨⟨trivial, hge2⟩, hub⟩

theorem make_atempo_chain_none_of_nonpos (r : ℚ) (hr : r ≤ 0) (fuel : Nat) :
    make_atempo_chain fuel r = none := by
  have h1 : loopHalve fuel r = some ([], r) :=
    loopHalve_of_not_gt fuel r (by intro hc; linarith)
  rw [make_atempo_chain_eq_of_halve fuel r [] r h1, loopDouble_none_of_nonpos fuel r hr]

/-- C1: for every ratio r > 0 the tempo chain planner terminates and returns a
non-empty ordered factor list whose product is exactly r (hence within any
relative tolerance, in particular 1e-9), with every factor in [0.5, 2.0]. -/
theorem make_atempo_chain_correct (r : ℚ) (hr : 0 < r) :
    (make_atempo_chain (atempoFuelBound r) r).isSome = true ∧
    ∀ fuel parts, make_atempo_chain fuel r = some parts →
      parts.isEmpty = false ∧ (parts.map Prod.snd).prod = r ∧ parts.all okFactor = true :=
  ⟨make_atempo_chain_isSome r hr,
   fun fuel parts h => make_atempo_chain_spec fuel r parts h⟩

/-- Witness for C1 at the concrete ratio r = 3 with fuel 3. -/
theorem make_atempo_chain_correct_witness :
    ([(("atempo" : String), (2 : ℚ)), ("atempo", 3 / 2)].isEmpty = false ∧
     ([(("atempo" : String), (2 : ℚ)), ("atempo", 3 / 2)].map Prod.snd).prod = 3 ∧
     [(("atempo" : String), (2 : ℚ)), ("atempo", 3 / 2)].all okFactor = true) :=
  (make_atempo_chain_correct 3 (by norm_num)).2 3
    [(("atempo" : String), (2 : ℚ)), ("atempo", 3 / 2)]
    (by norm_num [make_atempo_chain, loopHalve, loopDouble])

/-- C2: the planner returns exactly [2.0, 2.0, 1.25] for ratio 5, exactly
[0.5, 0.5, 0.8] for ratio 0.2 and exactly the one-element plan [1.0] for
ratio 1 — never an empty plan. -/
theorem make_atempo_chain_examples :
    make_atempo_chain 10 5 = some [("atempo", 2), ("atempo", 2), ("atempo", 5 / 4)] ∧
    make_atempo_chain 10 (1 / 5) =
      some [("atempo", 1 / 2), ("atempo", 1 / 2), ("atempo", 4 / 5)] ∧
    make_atempo_chain 10 1 = some [("atempo", 1)] ∧
    (make_atempo_chain 10 1).map List.isEmpty = some false := by
  refine ⟨?_, ?_, ?_, ?_⟩ <;>
    norm_num [make_atempo_chain, loopHalve, loopDouble]

/-- C10: the planner terminates for every ratio r > 0 (each halving iteration
strictly shrinks a ratio above 2, each doubling iteration strictly grows a
ratio below 1/2), but for ratio ≤ 0 the doubling loop never reaches 1/2 and
the function diverges — it returns `none` for every fuel, so r > 0 is a
necessary precondition. -/
theorem make_atempo_chain_termination :
    (∀ r : ℚ, 0 < r → (make_atempo_chain (atempoFuelBound r) r).isSome = true) ∧
    (∀ r : ℚ, r ≤ 0 → ∀ fuel, make_atempo_chain fuel r = none) :=
  ⟨fun r hr => make_atempo_chain_isSome r hr,
   fun r hr fuel => make_atempo_chain_none_of_nonpos r hr fuel⟩

/-- Witness for C10 at the concrete ratios r = 3, r = 0 and r = -2. -/
theorem make_atempo_chain_termination_witness :
    (make_atempo_chain (atempoFuelBound 3) (3 : ℚ)).isSome = true ∧
    make_atempo_chain 5 (0 : ℚ) = none ∧
    make_atempo_chain 7 (-2 : ℚ) = none :=
  ⟨make_atempo_chain_termination.1 3 (by norm_num),
   make_atempo_chain_termination.2 0 le_rfl 5,
   make_atempo_chain_termination.2 (-2) (by norm_num) 7⟩

/-! ### Theorems about the poll loop -/

theorem pollAux_step_exn (s : Nat → PollResponse) (fuel attempt : Nat) (st : PollStats)
    (hs : s attempt = .exn) :
    pollAux s (fuel + 1) attempt st =
      pollAux s fuel (attempt + 1) ⟨st.polls + 1, st.sleeps + 1, st.tokens⟩ := by
  simp only [pollAux, hs]

theorem pollAux_step_code (s : Nat → PollResponse) (fuel attempt : Nat) (st : PollStats)
    (code : Option Int) (message ts tsm : Option String) (videos : List VideoInfo)
    (hs : s attempt = .ok code message ts tsm videos) (hcode : code ≠ some 0) :
    pollAux s (fuel + 1) attempt st =
      pollAux s fuel (attempt + 1)
        ⟨st.polls + 1, st.sleeps + 1,
         if authIndicated (message.getD "Unknown error") then st.tokens + 1
         else st.tokens⟩ := by
  simp only [pollAux, hs]
  rw [if_pos hcode]

theorem pollAux_step_processing (s : Nat → PollResponse) (fuel attempt : Nat) (st : PollStats)
    (code : Option Int) (message ts tsm : Option String) (videos : List VideoInfo)
    (hs : s attempt = .ok code message ts tsm videos) (hcode : ¬ code ≠ some 0)
    (hts1 : ts ≠ some "failed") (hts2 : ts ≠ some "succeed") :
    pollAux s (fuel + 1) attempt st =
      pollAux s fuel (attempt + 1) ⟨st.polls + 1, st.sleeps + 1, st.tokens⟩ := by
  simp only [pollAux, hs]
  rw [if_neg hcode, if_neg hts1, if_neg hts2]

theorem pollAux_timeout (s : Nat → PollResponse) : ∀ (fuel attempt : Nat) (st : PollStats),
    (∀ i, attempt ≤ i → i < attempt + fuel → continuesOn (s i) = true) →
    (pollAux s fuel attempt st).1 = .failed "Maximum polling attempts reached" ∧
    (pollAux s fuel attempt st).2.polls = st.polls + fuel := by
  intro fuel
  induction fuel with
  | zero =>
    intro attempt st h
    exact ⟨rfl, rfl⟩
  | succ fuel ih =>
    intro attempt st h
    have hc := h attempt (le_refl attempt) (by omega)
    have hnext : ∀ i, attempt + 1 ≤ i → i < attempt + 1 + fuel → continuesOn (s i) = true :=
      fun i h1 h2 => h i (by omega) (by omega)
    rcases hs : s attempt with _ | ⟨code, message, ts, tsm, videos⟩
    · rw [pollAux_step_exn s fuel attempt st hs]
      obtain ⟨h1, h2⟩ := ih (attempt + 1) ⟨st.polls + 1, st.sleeps + 1, st.tokens⟩ hnext
      refine ⟨h1, ?_⟩
      dsimp only at h2
      rw [h2]
      omega
    · rw [hs] at hc
      by_cases hcode : code ≠ some 0
      · rw [pollAux_step_code s fuel attempt st code message ts tsm videos hs hcode]
        obtain ⟨h1, h2⟩ := ih (attempt + 1)
          ⟨st.polls + 1, st.sleeps + 1,
           if authIndicated (message.getD "Unknown error") then st.tokens + 1
           else st.tokens⟩ hnext
        refine ⟨h1, ?_⟩
        dsimp only at h2
        rw [h2]
        omega
      · simp only [continuesOn] at hc
        rw [if_neg hcode] at hc
        by_cases h1 : ts = some "failed"
        · rw [if_pos h1] at hc
          exact absurd hc (by simp)
        by_cases h2 : ts = some "succeed"
        · rw [if_neg h1, if_pos h2] at hc
          exact absurd hc (by simp)
        rw [pollAux_step_processing s fuel attempt st code message ts tsm videos hs hcode h1 h2]
        obtain ⟨hh1, hh2⟩ := ih (attempt + 1) ⟨st.polls + 1, st.sleeps + 1, st.tokens⟩ hnext
        refine ⟨hh1, ?_⟩
        dsimp only at hh2
        rw [hh2]
        omega

/-- C4 amended: on a status sequence that never reaches a terminal response
the poll loop exhausts its 100-attempt budget after exactly 100 polls and
returns the same `"failed"` status a provider-reported failure returns,
with the fixed error text "Maximum polling attempts reached"; the two
outcomes are distinguishable only through that error string, not through a
distinct status. -/
theorem poll_timeout_outcome (s : Nat → PollResponse)
    (h : ∀ i, i < max_attempts → continuesOn (s i) = true) :
    (pollTaskStatus s).1 = .failed "Maximum polling attempts reached" ∧
    (pollTaskStatus s).2.polls = max_attempts := by
  have hmain := pollAux_timeout s max_attempts 0 ⟨0, 0, 1⟩
    (fun i h1 h2 => h i (by omega))
  simp only [pollTaskStatus]
  exact ⟨hmain.1, by rw [hmain.2]; rfl⟩

/-- Witness for C4 (amended) on the constant "processing" sequence. -/
theorem poll_timeout_outcome_witness :
    (pollTaskStatus seqProcessing).1 = .failed "Maximum polling attempts reached" ∧
    (pollTaskStatus seqProcessing).2.polls = max_attempts :=
  poll_timeout_outcome seqProcessing (fun _ _ => rfl)

set_option maxRecDepth 40000 in
/-- C4 counterexample: the timeout outcome is not distinct from the outcome
for a provider-reported failure — when the provider fails with the message
"Maximum polling attempts reached", the poll loop's result value is equal
to the timeout result, even though one run polled 100 times (gave up) and
the other polled once (the job failed).  A caller cannot distinguish the
two from the returned value. -/
theorem poll_timeout_not_distinct :
    (pollTaskStatus seqProcessing).1 = (pollTaskStatus seqFailCoincide).1 ∧
    (pollTaskStatus seqProcessing).2.polls = 100 ∧
    (pollTaskStatus seqFailCoincide).2.polls = 1 := by
  decide

/-- C5: on [processing, processing, succeed-with-artifacts] the loop performs
exactly 3 polls and returns the completed result carrying the FIRST
artifact's url and duration; with an empty artifact list it instead stops
after the same 3 polls with the distinct error "No video in result". -/
theorem poll_success_extraction :
    pollTaskStatus seqPPS =
      (.completed (some "https://cdn/v1.mp4") (some "5"), ⟨3, 2, 1⟩) ∧
    pollTaskStatus seqPPSEmpty = (.failed "No video in result", ⟨3, 2, 1⟩) ∧
    decide ((pollTaskStatus seqPPSEmpty).1 = (pollTaskStatus seqPPS).1) = false := by
  decide

/-- C8 amended: a poll response with non-zero code classified as an
authentication failure makes the loop regenerate a token (token count + 1),
sleep one standard interval (sleep count + 1) and proceed to the NEXT
attempt — the auth retry consumes one attempt of the budget. -/
theorem poll_auth_retry_consumes_attempt (s : Nat → PollResponse) (fuel attempt : Nat)
    (st : PollStats) (code : Option Int) (message ts tsm : Option String)
    (videos : List VideoInfo) (hs : s attempt = .ok code message ts tsm videos)
    (hcode : code ≠ some 0)
    (hauth : authIndicated (message.getD "Unknown error") = true) :
    pollAux s (fuel + 1) attempt st =
      pollAux s fuel (attempt + 1) ⟨st.polls + 1, st.sleeps + 1, st.tokens + 1⟩ := by
  rw [pollAux_step_code s fuel attempt st code message ts tsm videos hs hcode, hauth]
  simp

/-- Witness for C8 (amended) at a concrete auth-failure response. -/
theorem poll_auth_retry_consumes_attempt_witness :
    pollAux seqAuthSucceedAt99 1 0 ⟨0, 0, 1⟩ = pollAux seqAuthSucceedAt99 0 1 ⟨1, 1, 2⟩ :=
  poll_auth_retry_consumes_attempt seqAuthSucceedAt99 0 0 ⟨0, 0, 1⟩ (some 1)
    (some "auth expired") none none [] rfl (by decide) (by decide)

set_option maxRecDepth 40000 in
/-- C8 counterexample: the attempt counter IS consumed by auth retries.  With
auth failures at attempts 0..98 and success at attempt 99 the loop returns
the completed result, but prepending one more auth failure (success moved
to attempt 100) makes the loop time out after 100 polls and 100 token
regenerations (101 tokens in total): the hundred auth retries consumed the
whole budget, so the retry is not "the same attempt". -/
theorem poll_auth_retry_shifts_budget :
    (pollTaskStatus seqAuthSucceedAt99).1 =
      .completed (some "https://cdn/v1.mp4") (some "5") ∧
    (pollTaskStatus seqAuthSucceedAt100).1 = .failed "Maximum polling attempts reached" ∧
    (pollTaskStatus seqAuthSucceedAt100).2.tokens = 101 ∧
    (pollTaskStatus seqAuthSucceedAt100).2.polls = 100 := by
  decide

/-! ### Theorems about the token issuer and generator construction -/

theorem getD_mem_or {α : Type} (l : List α) (n : Nat) (d : α) :
    l.getD n d ∈ l ∨ l.getD n d = d := by
  induction l generalizing n with
  | nil => right; simp [List.getD]
  | cons c t ih =>
    cases n with
    | zero => left; simp
    | succ m =>
      rcases ih m with h | h
      · left
        simp only [List.getD_cons_succ]
        exact List.mem_cons_of_mem c h
      · right
        simpa only [List.getD_cons_succ] using h

theorem b64Digit_mem (n : Nat) : b64Digit n ∈ b64Alphabet := by
  show b64Alphabet.getD n 'A' ∈ b64Alphabet
  rcases getD_mem_or b64Alphabet n 'A' with h | h
  · exact h
  · rw [h]
    decide

theorem b64urlChunks_decomp (bs : List Nat) :
    ∃ core pad, b64urlChunks bs = core ++ pad ∧
      (∀ c ∈ core, c ∈ b64Alphabet) ∧ (∀ c ∈ pad, c = '=') := by
  induction bs using b64urlChunks.induct with
  | case1 => exact ⟨[], [], rfl, by simp, by simp⟩
  | case2 a =>
    refine ⟨[b64Digit (a / 4), b64Digit (a % 4 * 16)], ['=', '='], rfl, ?_, ?_⟩
    · intro c hc
      simp only [List.mem_cons, List.not_mem_nil, or_false] at hc
      rcases hc with rfl | rfl <;> exact b64Digit_mem _
    · intro c hc
      simp only [List.mem_cons, List.not_mem_nil, or_false] at hc
      rcases hc with rfl | rfl <;> rfl
  | case3 a b =>
    refine ⟨[b64Digit (a / 4), b64Digit (a % 4 * 16 + b / 16), b64Digit (b % 16 * 4)],
            ['='], rfl, ?_, ?_⟩
    · intro c hc
      simp only [List.mem_cons, List.not_mem_nil, or_false] at hc
      rcases hc with rfl | rfl | rfl <;> exact b64Digit_mem _
    · intro c hc
      simp only [List.mem_cons, List.not_mem_nil, or_false] at hc
      rcases hc with rfl
      rfl
  | case4 a b c rest ih =>
    obtain ⟨core, pad, heq, hcore, hpad⟩ := ih
    refine ⟨b64Digit (a / 4) :: b64Digit (a % 4 * 16 + b / 16) ::
            b64Digit (b % 16 * 4 + c / 64) :: b64Digit (c % 64) :: core, pad, ?_, ?_, hpad⟩
    · simp only [b64urlChunks, heq, List.cons_append]
    · intro x hx
      simp only [List.mem_cons] at hx
      rcases hx with rfl | rfl | rfl | rfl | hmem
      · exact b64Digit_mem _
      · exact b64Digit_mem _
      · exact b64Digit_mem _
      · exact b64Digit_mem _
      · exact hcore x hmem

theorem dropWhile_all_eq (p : Char → Bool) : ∀ (l : List Char),
    (∀ c ∈ l, p c = true) → List.dropWhile p l = [] := by
  intro l
  induction l with
  | nil => intro _; rfl
  | cons c t ih =>
    intro h
    have hc := h c (List.mem_cons_self c t)
    have ht := ih (fun x hx => h x (List.mem_cons_of_mem c hx))
    simp [List.dropWhile_cons, hc, ht]

theorem dropWhile_head_false (p : Char → Bool) (l : List Char)
    (h : ∀ c ∈ l, p c = false) : List.dropWhile p l = l := by
  cases l with
  | nil => rfl
  | cons c t =>
    have hc := h c (List.mem_cons_self c t)
    simp [List.dropWhile_cons, hc]

theorem rstripEq_append_pad (core pad : List Char)
    (hcore : ∀ c ∈ core, c ∈ b64Alphabet) (hpad : ∀ c ∈ pad, c = '=') :
    rstripEq (core ++ pad) = core := by
  have hpad2 : ∀ c ∈ pad.reverse, (fun c => c == '=') c = true := by
    intro c hc
    have hcq := hpad c (List.mem_reverse.mp hc)
    simp [hcq]
  have hcore2 : ∀ c ∈ core.reverse, (fun c => c == '=') c = false := by
    intro c hc
    have hmem := hcore c (List.mem_reverse.mp hc)
    have hne : c ≠ '=' := by
      intro hcEq
      subst hcEq
      exact absurd hmem (by decide)
    simp [hne]
  rw [rstripEq, List.reverse_append, List.dropWhile_append,
      dropWhile_all_eq _ pad.reverse hpad2, dropWhile_head_false _ core.reverse hcore2]
  simp

theorem b64urlNoPad_mem (bs : List Nat) : ∀ c ∈ (b64urlNoPad bs).data, c ∈ b64Alphabet := by
  obtain ⟨core, pad, heq, hcore, hpad⟩ := b64urlChunks_decomp bs
  intro c hc
  have hdata : (b64urlNoPad bs).data = core := by
    calc (b64urlNoPad bs).data = rstripEq (b64urlChunks bs) := rfl
    _ = rstripEq (core ++ pad) := by rw [heq]
    _ = core := rstripEq_append_pad core pad hcore hpad
  rw [hdata] at hc
  exact hcore c hc

theorem b64urlNoPad_count_dot (bs : List Nat) : (b64urlNoPad bs).data.count '.' = 0 := by
  rw [List.count_eq_zero]
  intro hmem
  exact absurd (b64urlNoPad_mem bs '.' hmem) (by decide)

theorem b64urlNoPad_count_pad (bs : List Nat) : (b64urlNoPad bs).data.count '=' = 0 := by
  rw [List.count_eq_zero]
  intro hmem
  exact absurd (b64urlNoPad_mem bs '=' hmem) (by decide)

theorem generate_jwt_token_eq (now : Int) (access secret : String) :
    generate_jwt_token now access secret =
      jwtHeaderB64 ++ "." ++ jwtPayloadB64 now access ++ "." ++
        jwtSignatureB64 now access secret := rfl

theorem token_count_dot (now : Int) (access secret : String) :
    (generate_jwt_token now access secret).data.count '.' = 2 := by
  rw [generate_jwt_token_eq]
  simp only [jwtHeaderB64, jwtPayloadB64, jwtSignatureB64, String.data_append,
    List.count_append]
  rw [b64urlNoPad_count_dot, b64urlNoPad_count_dot, b64urlNoPad_count_dot]
  decide

theorem generate_jwt_token_len_pos (now : Int) (access secret : String) :
    0 < (generate_jwt_token now access secret).length := by
  rw [generate_jwt_token_eq]
  rw [String.length_append, String.length_append, String.length_append]
  have hdot : ("." : String).length = 1 := rfl
  rw [hdot]
  omega

/-- C7: for every fixed current time and keys, the issued token is exactly
`header.payload.signature` — the base64url-encoded (and '='-free, hence
unpadded) header and payload, the signature the base64url-encoded
HMAC-SHA256 of the string "header.payload" under the secret key, and the
payload the compact JSON object with issuer `iss`, expiry `exp = now + 1800`
and not-before `nbf = now - 5`.  The token contains exactly the two '.'
separators (base64url output cannot contain '.'), so the three parts are
recoverable; as a plain function of `now` and the keys it is deterministic
and pure. -/
theorem generate_jwt_token_structure (now : Int) (access secret : String) :
    generate_jwt_token now access secret =
      jwtHeaderB64 ++ "." ++ jwtPayloadB64 now access ++ "." ++
        jwtSignatureB64 now access secret ∧
    (generate_jwt_token now access secret).data.count '.' = 2 ∧
    jwtHeaderB64.data.count '=' = 0 ∧
    (jwtPayloadB64 now access).data.count '=' = 0 ∧
    (jwtSignatureB64 now access secret).data.count '=' = 0 ∧
    jwtSignatureB64 now access secret =
      b64urlNoPad (hmacSha256 (utf8Bytes secret)
        (utf8Bytes (jwtHeaderB64 ++ "." ++ jwtPayloadB64 now access))) ∧
    jwtPayloadB64 now access = b64urlNoPad (utf8Bytes (payloadJson now access)) ∧
    payloadJson now access =
      "\x7b\"iss\":" ++ pyJsonStr access ++ ",\"exp\":" ++ toString (now + 1800) ++
      ",\"nbf\":" ++ toString (now - 5) ++ "\x7d" := by
  refine ⟨rfl, token_count_dot now access secret, ?_, ?_, ?_, rfl, rfl, rfl⟩
  · exact b64urlNoPad_count_pad (utf8Bytes headerJson)
  · exact b64urlNoPad_count_pad (utf8Bytes (payloadJson now access))
  · exact b64urlNoPad_count_pad (hmacSha256 (utf8Bytes secret)
      (utf8Bytes (jwtHeaderB64 ++ "." ++ jwtPayloadB64 now access)))

/-- C6 counterexample: with both keys absent, construction does not fail — it
returns a generator with empty-string keys and merely records the printed
warning, and token generation still succeeds (produces a non-empty token),
contradicting "ConfigurationError, fatal at construction". -/
theorem kling_init_no_failure_counterexample :
    klingInit emptyKlingEnv =
      (⟨"", "", "https://api.klingai.com", "kling-v1", "10", "std", 1 / 2⟩, true) ∧
    0 < (generate_jwt_token 1000 "" "").length :=
  ⟨rfl, generate_jwt_token_len_pos 1000 "" ""⟩

/-- C6 amended: construction never fails — for every environment it returns a
generator; the credentials warning is printed exactly when the issuer key
or the secret key is absent (empty); and token generation succeeds for the
constructed generator regardless of key presence. -/
theorem kling_init_total (env : KlingEnv) :
    (klingInit env).2 =
      (((klingInit env).1.access_key == "") || ((klingInit env).1.secret_key == "")) ∧
    0 < (generate_jwt_token 0 (klingInit env).1.access_key
          (klingInit env).1.secret_key).length :=
  ⟨rfl, generate_jwt_token_len_pos 0 _ _⟩

/-! ### Theorems about the media merger and the orchestration boundary -/

/-- C3 amended: when BOTH input files exist, an existing output path with
overwrite false makes the merger fail immediately with the
output-already-exists error, performing zero external process invocations
(empty trace: no duration probe, no transcode). -/
theorem merge_output_exists_precheck (env : MergeEnv) (fuel : Nat) (v a o : String)
    (hv : env.pathExists v = true) (ha : env.pathExists a = true)
    (ho : env.pathExists o = true) :
    merge_audio_video env fuel v a o false =
      some (.ok (.failure ("输出文件已存在: " ++ o ++ "。使用overwrite=True覆盖现有文件。")),
        []) := by
  simp [merge_audio_video, hv, ha, ho]

/-- Witness for C3 (amended) on a filesystem where every path exists. -/
theorem merge_output_exists_precheck_witness :
    merge_audio_video allExistsEnv 0 "v.mp4" "a.mp3" "out.mp4" false =
      some (.ok (.failure ("输出文件已存在: " ++ "out.mp4" ++
        "。使用overwrite=True覆盖现有文件。")), []) :=
  merge_output_exists_precheck allExistsEnv 0 "v.mp4" "a.mp3" "out.mp4" rfl rfl rfl

/-- C3 counterexample: the claim does not hold for every video path — the
input checks run first, so with a missing video file and an existing
output (overwrite false) the merger returns the missing-video error, not
the output-exists error (the two messages differ); the trace is empty, but
the failure does not identify the existing output. -/
theorem merge_precheck_order_counterexample :
    merge_audio_video onlyOutputEnv 0 "v.mp4" "a.mp3" "out.mp4" false =
      some (.ok (.failure "视频文件不存在: v.mp4"), []) ∧
    (("视频文件不存在: v.mp4" : String) ==
      "输出文件已存在: out.mp4。使用overwrite=True覆盖现有文件。") = false := by
  refine ⟨?_, by decide⟩
  rfl

/-- C9: the two orchestration entry points never let an exception escape to
the caller: for every environment and every input, `generate_video`
returns a structured status dict (its trailing `except` catches the whole
try block, and the poll loop already returns failure dicts), and
`merge_audio_video` returns a structured result dict (precondition
failures are returned, and its `except` catches the try block) — never a
raised exception. -/
theorem orchestration_returns_structured_results (g : KlingGenerator) (env : GenEnv)
    (now : Int) (image_path script : String)
    (output_dir image_data static_mask : Option String)
    (dynamic_masks : Option (List MaskCfg)) (menv : MergeEnv) (fuel : Nat)
    (v a o : String) (overwrite : Bool) :
    raisesExc (generate_video g env now image_path script output_dir image_data
      static_mask dynamic_masks) = false ∧
    raisesOpt (merge_audio_video menv fuel v a o overwrite) = false := by
  constructor
  · rcases h : genTry g env now image_path output_dir image_data static_mask dynamic_masks
      with e | r
    · simp [generate_video, h, raisesExc]
    · simp [generate_video, h, raisesExc]
  · by_cases h1 : menv.pathExists v = false
    · simp [merge_audio_video, h1, raisesOpt]
    by_cases h2 : menv.pathExists a = false
    · simp [merge_audio_video, h1, h2, raisesOpt]
    by_cases h3 : menv.pathExists o = true ∧ overwrite = false
    · simp [merge_audio_video, h1, h2, h3, raisesOpt]
    rcases h4 : mergeTry menv fuel v a o with _ | ⟨exc, tr⟩
    · simp [merge_audio_video, h1, h2, h3, h4, raisesOpt]
    · rcases exc with e | s <;>
        simp [merge_audio_video, h1, h2, h3, h4, raisesOpt]
